import Mathlib

/-!
Verification of the semantic-sorter core (worker pipeline in `src/worker.ts`,
controller logic in `src/main.ts`) against its natural-language specification.

The TypeScript source is shallowly embedded below: JavaScript numbers holding
item indices and matrix costs become `Int`/`Nat`; embedding vectors and 2D
coordinates become `List ℝ`; JavaScript `Math.floor(a/b)` is `Int.fdiv`,
the `%` operator is `Int.tmod` (truncated remainder, sign of the dividend),
and `Math.round` is `fun x => ⌊x + 1/2⌋` (half-up rounding).  Fallible
external collaborators (embedder, UMAP, VRP solver) are passed in as
`Except`-valued functions, and the worker's `postMessage` traffic is the
ordered list of messages the embedded `runSort` returns.
-/

namespace SemanticSorter

/-- Synthetic geographic-shaped coordinate carrying an encoded item index
(`{ lat, lng }` objects in the source). -/
structure Loc where
  lat : ℤ
  lng : ℤ
deriving DecidableEq

/-- Source: `const encodeLoc = (idx) => ({ lat: Math.floor(idx / 1000), lng: idx % 1000 })`.
`Math.floor(idx / 1000)` on an integer is floor division (`Int.fdiv`) and the
JavaScript `%` is the truncated remainder (`Int.tmod`). -/
def encodeLoc (idx : ℤ) : Loc :=
  { lat := idx.fdiv 1000, lng := idx.tmod 1000 }

/-- Source: `const decodeLoc = (loc) => Math.round(loc.lat * 1000 + loc.lng)`.
On the integer-valued fields of `Loc` the `Math.round` is the identity. -/
def decodeLoc (loc : Loc) : ℤ :=
  loc.lat * 1000 + loc.lng

/-- C6: for every valid index `i` in `[0, 1000*1000)`, decoding the encoded
location returns `i` (the Location Codec round-trips on the valid range). -/
theorem decode_encode_roundtrip (i : ℤ) (h0 : 0 ≤ i) (_h1 : i < 1000000) :
    decodeLoc (encodeLoc i) = i := by
  unfold decodeLoc encodeLoc
  simp only
  rw [Int.fdiv_eq_ediv i (by norm_num), Int.tmod_eq_emod h0 (by norm_num)]
  omega

/-- C6 witness: the round-trip at the concrete valid index 987654. -/
theorem decode_encode_roundtrip_witness :
    decodeLoc (encodeLoc 987654) = 987654 :=
  decode_encode_roundtrip 987654 (by norm_num) (by norm_num)

/-- C7 counterexample: at the invalid (negative) index `-1`, `encodeLoc` does
not fail: it returns the ordinary location `⟨-1, -1⟩`, which silently decodes
to `-1001 ≠ -1` instead of signalling an error. -/
theorem encodeLoc_negative_cex :
    encodeLoc (-1) = ⟨-1, -1⟩ ∧ decodeLoc (encodeLoc (-1)) ≠ -1 := by
  constructor
  · rfl
  · decide

/-- Truncating division equals Euclidean division rewritten through the
negation lemmas, for a negative dividend and the positive divisor 1000. -/
theorem tdiv_neg_dividend (i : ℤ) (h : i < 0) :
    i.tdiv 1000 = -((-i) / 1000) := by
  have h1 : (-(-i)).tdiv 1000 = -((-i).tdiv 1000) := Int.neg_tdiv (-i) 1000
  rw [neg_neg] at h1
  rw [h1, Int.tdiv_eq_ediv (by omega) (by norm_num)]

/-- C7 amended: `encodeLoc` performs no input validation.  It is total on all
integers; for a negative index that is not a multiple of 1000 it silently
returns a location that decodes to `i - 1000`, i.e. a corrupted value rather
than a sentinel or an exception. -/
theorem encodeLoc_total_no_validation (i : ℤ) (hneg : i < 0)
    (hnd : ¬ (1000 : ℤ) ∣ i) :
    decodeLoc (encodeLoc i) = i - 1000 ∧ decodeLoc (encodeLoc i) ≠ i := by
  have hfd : i.fdiv 1000 = i / 1000 := Int.fdiv_eq_ediv i (by norm_num)
  have htm : i.tmod 1000 = i - 1000 * i.tdiv 1000 := Int.tmod_def i 1000
  have htd : i.tdiv 1000 = -((-i) / 1000) := tdiv_neg_dividend i hneg
  have hr : i % 1000 ≠ 0 := fun hc => hnd (Int.dvd_iff_emod_eq_zero.mpr hc)
  have e1 : 1000 * (i / 1000) + i % 1000 = i := Int.ediv_add_emod i 1000
  have e2 : 1000 * ((-i) / 1000) + (-i) % 1000 = -i := Int.ediv_add_emod (-i) 1000
  have m1 : 0 ≤ i % 1000 := Int.emod_nonneg i (by norm_num)
  have m2 : i % 1000 < 1000 := Int.emod_lt_of_pos i (by norm_num)
  have m3 : 0 ≤ (-i) % 1000 := Int.emod_nonneg (-i) (by norm_num)
  have m4 : (-i) % 1000 < 1000 := Int.emod_lt_of_pos (-i) (by norm_num)
  unfold decodeLoc encodeLoc
  simp only
  rw [hfd, htm, htd]
  constructor
  · omega
  · omega

/-- C7 amended witness: the amended statement instantiated at `i = -1`. -/
theorem encodeLoc_total_no_validation_witness :
    decodeLoc (encodeLoc (-1)) = -1 - 1000 ∧ decodeLoc (encodeLoc (-1)) ≠ -1 :=
  encodeLoc_total_no_validation (-1) (by norm_num) (by decide)

/-! ### Solution Decoder (`runSort`, lines 156–162 of `src/worker.ts`) -/

/-- One stop of a tour returned by the optimizer. -/
structure Stop where
  location : Loc
deriving DecidableEq

/-- Body of the `stops.forEach` callback: decode the stop's location and
append the index only if it is not already present. -/
def decodeStep (sortedIndices : List ℤ) (stop : Stop) : List ℤ :=
  let locationIdx := decodeLoc stop.location
  if locationIdx ∈ sortedIndices then sortedIndices else sortedIndices ++ [locationIdx]

/-- Source: the `sortedIndices` accumulation over `stops.forEach(...)`. -/
def decodeSolution (stops : List Stop) : List ℤ :=
  stops.foldl decodeStep []

/-- The fold underlying `decodeSolution` preserves distinctness and only ever
adds indices decoded from some stop of the input. -/
theorem decodeSolution_foldl_spec (stops : List Stop) :
    ∀ acc : List ℤ, acc.Nodup →
      (stops.foldl decodeStep acc).Nodup ∧
      ∀ x ∈ stops.foldl decodeStep acc,
        x ∈ acc ∨ ∃ s ∈ stops, x = decodeLoc s.location := by
  induction stops with
  | nil =>
    intro acc hacc
    exact ⟨hacc, fun x hx => Or.inl hx⟩
  | cons s t ih =>
    intro acc hacc
    by_cases hmem : decodeLoc s.location ∈ acc
    · have hstep : decodeStep acc s = acc := by simp [decodeStep, hmem]
      have hstepn : (decodeStep acc s).Nodup := by rw [hstep]; exact hacc
      obtain ⟨hn, hm⟩ := ih (decodeStep acc s) hstepn
      refine ⟨hn, fun x hx => ?_⟩
      rcases hm x hx with hx0 | ⟨u, hu, hxu⟩
      · rw [hstep] at hx0
        exact Or.inl hx0
      · exact Or.inr ⟨u, List.mem_cons_of_mem s hu, hxu⟩
    · have hstep : decodeStep acc s = acc ++ [decodeLoc s.location] := by
        simp [decodeStep, hmem]
      have hstepn : (decodeStep acc s).Nodup := by
        rw [hstep]
        simp [List.nodup_append, hacc, hmem]
      obtain ⟨hn, hm⟩ := ih (decodeStep acc s) hstepn
      refine ⟨hn, fun x hx => ?_⟩
      rcases hm x hx with hx0 | ⟨u, hu, hxu⟩
      · rw [hstep] at hx0
        rcases List.mem_append.mp hx0 with h0 | h0
        · exact Or.inl h0
        · exact Or.inr ⟨s, List.mem_cons_self s t, List.mem_singleton.mp h0⟩
      · exact Or.inr ⟨u, List.mem_cons_of_mem s hu, hxu⟩

/-- C8 counterexample: a raw stop list that visits two distinct locations
while the canonical location list has a single entry — the decoded sequence
has length 2, exceeding the canonical list's length 1, so the bound does not
hold for arbitrary (unconstrained) stop lists. -/
theorem decodeSolution_length_cex :
    ¬ ((decodeSolution [⟨⟨0, 0⟩⟩, ⟨⟨0, 1⟩⟩]).length ≤
        ([⟨0, 0⟩] : List Loc).length) := by
  decide

/-- C8 amended: for every raw tour whose stops all decode into the canonical
location list's decoded indices, the decoded output has no duplicate index and
its length is at most the number of canonical locations. -/
theorem decodeSolution_nodup_bounded (stops : List Stop) (canonical : List Loc)
    (h : ∀ s ∈ stops, decodeLoc s.location ∈ canonical.map decodeLoc) :
    (decodeSolution stops).Nodup ∧
      (decodeSolution stops).length ≤ canonical.length := by
  obtain ⟨hn, hm⟩ := decodeSolution_foldl_spec stops [] List.nodup_nil
  refine ⟨hn, ?_⟩
  have hsub : ∀ x ∈ decodeSolution stops, x ∈ canonical.map decodeLoc := by
    intro x hx
    rcases hm x hx with h0 | ⟨s, hs, hxs⟩
    · cases h0
    · exact hxs ▸ h s hs
  calc (decodeSolution stops).length
      = (decodeSolution stops).toFinset.card := (List.toFinset_card_of_nodup hn).symm
    _ ≤ (canonical.map decodeLoc).toFinset.card := by
        refine Finset.card_le_card ?_
        intro x hx
        rw [List.mem_toFinset] at hx ⊢
        exact hsub x hx
    _ ≤ (canonical.map decodeLoc).length := (canonical.map decodeLoc).toFinset_card_le
    _ = canonical.length := List.length_map canonical decodeLoc

/-- C8 amended witness: a tour revisiting its first location, against a
two-entry canonical list. -/
theorem decodeSolution_nodup_bounded_witness :
    (decodeSolution [⟨⟨0, 0⟩⟩, ⟨⟨0, 1⟩⟩, ⟨⟨0, 0⟩⟩]).Nodup ∧
      (decodeSolution [⟨⟨0, 0⟩⟩, ⟨⟨0, 1⟩⟩, ⟨⟨0, 0⟩⟩]).length ≤
        ([⟨0, 0⟩, ⟨0, 1⟩] : List Loc).length :=
  decodeSolution_nodup_bounded _ _ (by decide)

/-! ### Controller-side validation (`runSort` in `src/main.ts`, lines 146–159) -/

/-- Effects the controller's `runSort` performs, in order (DOM writes and the
`postMessage` dispatch to the worker).  Input strings are modelled as
character lists so the validation logic stays kernel-executable. -/
inductive CtrlAction where
  | setStatus (msg : String)
  | sortBtnDisabled (disabled : Bool)
  | postSort (entities : List (List Char))

/-- JavaScript `String.prototype.trim`: drop leading and trailing whitespace. -/
def jsTrim (s : List Char) : List Char :=
  ((s.dropWhile Char.isWhitespace).reverse.dropWhile Char.isWhitespace).reverse

/-- JavaScript `String.prototype.split` with a single-character separator. -/
def splitOnChar (sep : Char) : List Char → List (List Char)
  | [] => [[]]
  | c :: rest =>
    match splitOnChar sep rest with
    | [] => [[]]
    | g :: gs => if c = sep then [] :: g :: gs else (c :: g) :: gs

/-- Source: `text.split('\n').map(l => l.trim()).filter(l => l.length > 0)`. -/
def entitiesOf (text : List Char) : List (List Char) :=
  ((splitOnChar '\n' text).map jsTrim).filter (fun l => 0 < l.length)

/-- Shallow embedding of the controller's `runSort` (`src/main.ts`): validate
the input locally and either reject or dispatch a `SORT` message.  The
`performance.now()` timer write has no observable effect and is omitted. -/
def mainRunSort (workerPresent vrpReady : Bool) (inputValue : List Char) :
    List CtrlAction :=
  if ¬ workerPresent ∨ ¬ vrpReady then []
  else
    let text := jsTrim inputValue
    if text = [] then []
    else
      let entities := entitiesOf text
      if entities.length < 2 then
        [CtrlAction.setStatus "VALIDATION_ERROR: NULL_SET_OR_INSUFFICIENT_NODES"]
      else
        [CtrlAction.sortBtnDisabled true,
         CtrlAction.setStatus "PIPELINE_START: DISTRIBUTING_WORKLOAD",
         CtrlAction.postSort entities]

/-- C9: whenever the trimmed, empty-line-filtered input has fewer than 2
items, the controller rejects the request locally: no `SORT` dispatch appears
among its actions, for any worker/readiness state. -/
theorem mainRunSort_rejects_small_input (workerPresent vrpReady : Bool)
    (inputValue : List Char)
    (h : (entitiesOf (jsTrim inputValue)).length < 2) :
    ∀ es, CtrlAction.postSort es ∉ mainRunSort workerPresent vrpReady inputValue := by
  intro es
  simp only [mainRunSort]
  by_cases h1 : ¬ workerPresent ∨ ¬ vrpReady
  · rw [if_pos h1]
    simp
  · rw [if_neg h1]
    by_cases h2 : jsTrim inputValue = []
    · rw [if_pos h2]
      simp
    · rw [if_neg h2, if_pos h]
      simp

/-- C9 witness: the single-item input "one" is rejected before dispatch. -/
theorem mainRunSort_rejects_small_input_witness :
    (entitiesOf (jsTrim "one".data)).length < 2 ∧
      ∀ es, CtrlAction.postSort es ∉ mainRunSort true true "one".data :=
  ⟨by decide, mainRunSort_rejects_small_input true true "one".data (by decide)⟩

/-! ### Distance functions (`cosineSimilarity` / `getDistance` in `src/worker.ts`,
duplicated verbatim in `src/main.ts`).  Float arithmetic is idealized over `ℝ`. -/

/-- Source: the `cosineSimilarity` loop.  The loop index runs over `a`'s
length: the dot product pairs entries up to the common length (`zipWith`),
and the `normB` accumulator only sees the first `a.length` entries of `b`
(`b.take a.length`); for the equal-length embedding vectors the pipeline
produces, these coincide with the full vectors. -/
noncomputable def cosineSimilarity (a b : List ℝ) : ℝ :=
  let dot := (List.zipWith (fun x y => x * y) a b).sum
  let normA := (a.map (fun x => x * x)).sum
  let normB := ((b.take a.length).map (fun x => x * x)).sum
  dot / (Real.sqrt normA * Real.sqrt normB)

/-- Source: `getDistance = (a, b) => Math.max(0, 1 - cosineSimilarity(a, b))`. -/
noncomputable def getDistance (a b : List ℝ) : ℝ :=
  max 0 (1 - cosineSimilarity a b)

theorem sum_zipWith_mul_eq (a : List ℝ) : ∀ b : List ℝ,
    (List.zipWith (fun x y => x * y) a b).sum =
      ∑ i in Finset.range (min a.length b.length), a.getD i 0 * b.getD i 0 := by
  induction a with
  | nil => intro b; simp
  | cons x t ih =>
    intro b
    cases b with
    | nil => simp
    | cons y u =>
      simp only [List.zipWith_cons_cons, List.sum_cons, List.length_cons, ih u]
      rw [Nat.succ_min_succ, Finset.sum_range_succ']
      simp only [List.getD_cons_succ, List.getD_cons_zero]
      exact add_comm _ _

theorem sum_map_mul_self_eq (a : List ℝ) :
    (a.map (fun x => x * x)).sum =
      ∑ i in Finset.range a.length, a.getD i 0 * a.getD i 0 := by
  induction a with
  | nil => simp
  | cons x t ih =>
    simp only [List.map_cons, List.sum_cons, List.length_cons, ih]
    rw [Finset.sum_range_succ']
    simp only [List.getD_cons_succ, List.getD_cons_zero]
    exact add_comm _ _

theorem getD_take (b : List ℝ) : ∀ n i : ℕ, i < n →
    (b.take n).getD i 0 = b.getD i 0 := by
  induction b with
  | nil => intro n i _; simp
  | cons y u ih =>
    intro n i hin
    cases n with
    | zero => omega
    | succ m =>
      cases i with
      | zero => simp
      | succ j =>
        simp only [List.take_succ_cons, List.getD_cons_succ]
        exact ih m j (by omega)

theorem sum_take_mul_self_eq (a b : List ℝ) :
    ((b.take a.length).map (fun x => x * x)).sum =
      ∑ i in Finset.range (min a.length b.length), b.getD i 0 * b.getD i 0 := by
  rw [sum_map_mul_self_eq, List.length_take]
  refine Finset.sum_congr rfl ?_
  intro i hi
  rw [Finset.mem_range] at hi
  rw [getD_take b a.length i (lt_of_lt_of_le hi (min_le_left _ _))]

/-- Cauchy–Schwarz for the loop's accumulators: the dot product (over the
common length) is bounded by the product of the two root-norms the code
divides by. -/
theorem abs_dot_le (a b : List ℝ) :
    |(List.zipWith (fun x y => x * y) a b).sum| ≤
      Real.sqrt ((a.map (fun x => x * x)).sum) *
        Real.sqrt (((b.take a.length).map (fun x => x * x)).sum) := by
  rw [sum_zipWith_mul_eq, sum_map_mul_self_eq, sum_take_mul_self_eq]
  set m := min a.length b.length with hm
  have hcs := Finset.sum_mul_sq_le_sq_mul_sq (Finset.range m)
    (fun i => a.getD i 0) (fun i => b.getD i 0)
  simp only [pow_two] at hcs
  have hsub : Finset.range m ⊆ Finset.range a.length :=
    Finset.range_subset.mpr (min_le_left _ _)
  have hA : (∑ i in Finset.range m, a.getD i 0 * a.getD i 0) ≤
      ∑ i in Finset.range a.length, a.getD i 0 * a.getD i 0 :=
    Finset.sum_le_sum_of_subset_of_nonneg hsub (fun i _ _ => mul_self_nonneg _)
  have hBnn : 0 ≤ ∑ i in Finset.range m, b.getD i 0 * b.getD i 0 :=
    Finset.sum_nonneg (fun i _ => mul_self_nonneg _)
  have hAnn : 0 ≤ ∑ i in Finset.range a.length, a.getD i 0 * a.getD i 0 :=
    Finset.sum_nonneg (fun i _ => mul_self_nonneg _)
  have h2 : (∑ i in Finset.range m, a.getD i 0 * b.getD i 0) ^ 2 ≤
      (∑ i in Finset.range a.length, a.getD i 0 * a.getD i 0) *
        (∑ i in Finset.range m, b.getD i 0 * b.getD i 0) := by
    calc (∑ i in Finset.range m, a.getD i 0 * b.getD i 0) ^ 2
        ≤ (∑ i in Finset.range m, a.getD i 0 * a.getD i 0) *
            (∑ i in Finset.range m, b.getD i 0 * b.getD i 0) := by
          simpa [pow_two] using hcs
      _ ≤ _ := mul_le_mul_of_nonneg_right hA hBnn
  calc |∑ i in Finset.range m, a.getD i 0 * b.getD i 0|
      = Real.sqrt ((∑ i in Finset.range m, a.getD i 0 * b.getD i 0) ^ 2) :=
        (Real.sqrt_sq_eq_abs _).symm
    _ ≤ Real.sqrt ((∑ i in Finset.range a.length, a.getD i 0 * a.getD i 0) *
          (∑ i in Finset.range m, b.getD i 0 * b.getD i 0)) :=
        Real.sqrt_le_sqrt h2
    _ = _ := Real.sqrt_mul hAnn _

theorem zipWith_mul_self (e : List ℝ) :
    List.zipWith (fun x y => x * y) e e = e.map (fun x => x * x) := by
  induction e with
  | nil => rfl
  | cons c t ih => simp only [List.zipWith_cons_cons, List.map_cons, ih]

theorem sum_sq_pos_of_mem_ne_zero (e : List ℝ) (x : ℝ) (hx : x ∈ e)
    (hx0 : x ≠ 0) : 0 < (e.map (fun x => x * x)).sum := by
  induction e with
  | nil => cases hx
  | cons c t ih =>
    have htnn : 0 ≤ (t.map (fun x => x * x)).sum := by
      refine List.sum_nonneg ?_
      intro y hy
      rcases List.mem_map.mp hy with ⟨z, _, rfl⟩
      exact mul_self_nonneg z
    rcases List.mem_cons.mp hx with rfl | hmem
    · have h1 : 0 < x * x := mul_self_pos.mpr hx0
      simp only [List.map_cons, List.sum_cons]
      linarith
    · have h1 : 0 < (t.map (fun x => x * x)).sum := ih hmem
      have h2 : 0 ≤ c * c := mul_self_nonneg c
      simp only [List.map_cons, List.sum_cons]
      linarith

/-- C4 counterexample: for the opposite one-dimensional vectors `[1]` and
`[-1]` the code's distance is `max(0, 1 - (-1)) = 2`, violating the claimed
upper bound `distance(a, b) <= 1`. -/
theorem getDistance_upper_bound_cex :
    getDistance [(1 : ℝ)] [(-1 : ℝ)] = 2 ∧
      ¬ (getDistance [(1 : ℝ)] [(-1 : ℝ)] ≤ 1) := by
  have h : getDistance [(1 : ℝ)] [(-1 : ℝ)] = 2 := by
    simp [getDistance, cosineSimilarity]
    norm_num [Real.sqrt_one]
  refine ⟨h, ?_⟩
  rw [h]
  norm_num

/-- C4 amended: `getDistance` clamps only from below.  For every non-zero
vector `e`, `getDistance e e = 0`, and for every pair of vectors the distance
lies in `[0, 2]` (cosine similarity ranges over `[-1, 1]`, so `1 - sim`
reaches 2; the claimed upper bound 1 is replaced by 2). -/
theorem getDistance_clamped_bounds :
    (∀ e : List ℝ, (∃ x ∈ e, x ≠ 0) → getDistance e e = 0) ∧
      ∀ a b : List ℝ, 0 ≤ getDistance a b ∧ getDistance a b ≤ 2 := by
  constructor
  · rintro e ⟨x, hx, hx0⟩
    have hpos : 0 < (e.map (fun x => x * x)).sum :=
      sum_sq_pos_of_mem_ne_zero e x hx hx0
    simp only [getDistance, cosineSimilarity, zipWith_mul_self, List.take_length]
    rw [Real.mul_self_sqrt (le_of_lt hpos), div_self (ne_of_gt hpos)]
    simp
  · intro a b
    refine ⟨le_max_left 0 _, ?_⟩
    have hsim : -1 ≤ cosineSimilarity a b := by
      simp only [cosineSimilarity]
      set dot := (List.zipWith (fun x y => x * y) a b).sum with hdot
      set D := Real.sqrt ((a.map (fun x => x * x)).sum) *
        Real.sqrt (((b.take a.length).map (fun x => x * x)).sum) with hD
      have hDnn : 0 ≤ D := mul_nonneg (Real.sqrt_nonneg _) (Real.sqrt_nonneg _)
      rcases hDnn.eq_or_lt with hD0 | hDpos
      · rw [← hD0, div_zero]
        norm_num
      · rw [le_div_iff₀ hDpos]
        have habs := abs_dot_le a b
        rw [← hdot, ← hD] at habs
        have hlow : -D ≤ dot := (abs_le.mp habs).1
        linarith
    apply max_le (by norm_num)
    linarith

/-- C4 amended witness: the self-distance at the non-zero vector `[1, 0]`
and the bounds at the pair `[1]`, `[-1]`. -/
theorem getDistance_clamped_bounds_witness :
    getDistance [(1 : ℝ), 0] [(1 : ℝ), 0] = 0 ∧
      (0 ≤ getDistance [(1 : ℝ)] [(-1 : ℝ)] ∧
        getDistance [(1 : ℝ)] [(-1 : ℝ)] ≤ 2) :=
  ⟨getDistance_clamped_bounds.1 [1, 0] ⟨1, by simp, one_ne_zero⟩,
    getDistance_clamped_bounds.2 [1] [-1]⟩

/-! ### Distance Matrix Builder (`runSort`, lines 116–135 of `src/worker.ts`) -/

/-- JavaScript array indexing with the truthiness guard
`!embeddings[idxA]`: an embedding row (an array, always truthy) is found
exactly when the decoded index is non-negative and in range. -/
def lookupEmb (embeddings : List (List ℝ)) (i : ℤ) : Option (List ℝ) :=
  if 0 ≤ i then embeddings[i.toNat]? else none

/-- JavaScript `Math.round`: round half toward positive infinity. -/
noncomputable def jsRound (x : ℝ) : ℤ :=
  ⌊x + 1 / 2⌋

/-- One cell of the distance matrix: decode both locations, emit the fixed
penalty 20000 if either embedding row is missing, otherwise
`Math.round(getDistance(...) * 10000)`. -/
noncomputable def matrixCell (embeddings : List (List ℝ)) (u v : Loc) : ℤ :=
  match lookupEmb embeddings (decodeLoc u), lookupEmb embeddings (decodeLoc v) with
  | some ea, some eb => jsRound (getDistance ea eb * 10000)
  | _, _ => 20000

/-- Source: the nested `for i / for j` loops pushing `distances` in row-major
`routingLocations` order. -/
noncomputable def buildDistances (embeddings : List (List ℝ))
    (routingLocations : List Loc) : List ℤ :=
  (routingLocations.map (fun u =>
    routingLocations.map (fun v => matrixCell embeddings u v))).flatten

theorem lookupEmb_mem {embeddings : List (List ℝ)} {i : ℤ} {e : List ℝ}
    (h : lookupEmb embeddings i = some e) : e ∈ embeddings := by
  unfold lookupEmb at h
  split at h
  · exact List.getElem?_mem h
  · cases h

theorem cosineSimilarity_comm (a b : List ℝ) (h : a.length = b.length) :
    cosineSimilarity a b = cosineSimilarity b a := by
  simp only [cosineSimilarity]
  rw [List.zipWith_comm_of_comm (fun x y => x * y) mul_comm a b]
  have hb : b.take a.length = b := by rw [h]; exact List.take_length b
  have ha : a.take b.length = a := by rw [← h]; exact List.take_length a
  rw [hb, ha]
  ring

theorem getDistance_comm (a b : List ℝ) (h : a.length = b.length) :
    getDistance a b = getDistance b a := by
  simp only [getDistance, cosineSimilarity_comm a b h]

theorem matrixCell_comm (embeddings : List (List ℝ))
    (hlen : ∀ u ∈ embeddings, ∀ v ∈ embeddings, List.length u = List.length v)
    (u v : Loc) : matrixCell embeddings u v = matrixCell embeddings v u := by
  unfold matrixCell
  cases h1 : lookupEmb embeddings (decodeLoc u) with
  | none =>
    cases h2 : lookupEmb embeddings (decodeLoc v) with
    | none => rfl
    | some eb => rfl
  | some ea =>
    cases h2 : lookupEmb embeddings (decodeLoc v) with
    | none => rfl
    | some eb =>
      have hc := getDistance_comm ea eb
        (hlen ea (lookupEmb_mem h1) eb (lookupEmb_mem h2))
      show jsRound (getDistance ea eb * 10000) = jsRound (getDistance eb ea * 10000)
      rw [hc]

/-- Indexing a flattened list of uniform-length rows recovers the row-major
cell. -/
theorem getD_flatten_of_uniform {α : Type} (d : α) (n : ℕ) :
    ∀ L : List (List α), (∀ l ∈ L, l.length = n) →
      ∀ i j : ℕ, i < L.length → j < n →
        L.flatten.getD (i * n + j) d = (L.getD i []).getD j d := by
  intro L
  induction L with
  | nil =>
    intro _ i j hi _
    exact absurd hi (Nat.not_lt_zero i)
  | cons l t ih =>
    intro hL i j hi hj
    have hl : l.length = n := hL l (List.mem_cons_self l t)
    cases i with
    | zero =>
      simp only [List.flatten_cons, Nat.zero_mul, Nat.zero_add, List.getD_cons_zero]
      exact List.getD_append l t.flatten d j (by omega)
    | succ i2 =>
      have harith : (i2 + 1) * n + j = l.length + (i2 * n + j) := by
        rw [hl]; ring
      rw [List.flatten_cons, harith,
        List.getD_append_right l t.flatten d _ (Nat.le_add_right _ _),
        Nat.add_sub_cancel_left, List.getD_cons_succ]
      exact ih (fun l2 hl2 => hL l2 (List.mem_cons_of_mem l hl2)) i2 j
        (Nat.lt_of_succ_lt_succ hi) hj

theorem buildDistances_length (embeddings : List (List ℝ)) (rl : List Loc) :
    (buildDistances embeddings rl).length = rl.length * rl.length := by
  unfold buildDistances
  rw [List.length_flatten, List.map_map]
  have hconst : (List.length ∘ fun u => rl.map (fun v => matrixCell embeddings u v)) =
      Function.const Loc rl.length := by
    funext u
    simp [List.length_map]
  rw [hconst, List.map_const, List.sum_replicate, smul_eq_mul]

/-- C1: the Distance Matrix Builder returns exactly `n²` integer costs in
row-major canonical-location order (`n = routingLocations.length`); cell
`(i, j)` is `matrixCell` of the decoded pair — the rounded scaled clamped
cosine distance when both embeddings exist, the fixed penalty 20000 otherwise
— and equals cell `(j, i)`.  The hypothesis records that all embedding rows
have the same (fixed) vector length, as the embedder contract guarantees. -/
theorem buildDistances_spec (embeddings : List (List ℝ)) (rl : List Loc)
    (hlen : ∀ u ∈ embeddings, ∀ v ∈ embeddings, List.length u = List.length v) :
    (buildDistances embeddings rl).length = rl.length * rl.length ∧
      ∀ i j : ℕ, i < rl.length → j < rl.length →
        (buildDistances embeddings rl).getD (i * rl.length + j) 0 =
            matrixCell embeddings (rl.getD i ⟨0, 0⟩) (rl.getD j ⟨0, 0⟩) ∧
          (buildDistances embeddings rl).getD (i * rl.length + j) 0 =
            (buildDistances embeddings rl).getD (j * rl.length + i) 0 := by
  have hcell : ∀ i j : ℕ, i < rl.length → j < rl.length →
      (buildDistances embeddings rl).getD (i * rl.length + j) 0 =
        matrixCell embeddings (rl.getD i ⟨0, 0⟩) (rl.getD j ⟨0, 0⟩) := by
    intro i j hi hj
    unfold buildDistances
    rw [getD_flatten_of_uniform 0 rl.length _
      (by
        intro l hl
        rcases List.mem_map.mp hl with ⟨u, _, rfl⟩
        exact List.length_map _ _)
      i j (by rwa [List.length_map]) hj]
    have hi1 : i < (rl.map (fun u =>
        rl.map (fun v => matrixCell embeddings u v))).length := by
      rwa [List.length_map]
    rw [List.getD_eq_getElem _ _ hi1, List.getElem_map]
    have hj1 : j < (rl.map (fun v => matrixCell embeddings rl[i] v)).length := by
      rwa [List.length_map]
    rw [List.getD_eq_getElem _ _ hj1, List.getElem_map,
      List.getD_eq_getElem rl _ hi, List.getD_eq_getElem rl _ hj]
  refine ⟨buildDistances_length embeddings rl, fun i j hi hj =>
    ⟨hcell i j hi hj, ?_⟩⟩
  rw [hcell i j hi hj, hcell j i hj hi, matrixCell_comm embeddings hlen]

/-- C1 witness: a two-location canonical list over two one-dimensional
embeddings — length `2 * 2`, the `(0,1)` cell, and its symmetry with the
`(1,0)` cell. -/
theorem buildDistances_spec_witness :
    (buildDistances [[(1 : ℝ)], [1]] [⟨0, 0⟩, ⟨0, 1⟩]).length = 2 * 2 ∧
      ((buildDistances [[(1 : ℝ)], [1]] [⟨0, 0⟩, ⟨0, 1⟩]).getD (0 * 2 + 1) 0 =
          matrixCell [[(1 : ℝ)], [1]]
            (([⟨0, 0⟩, ⟨0, 1⟩] : List Loc).getD 0 ⟨0, 0⟩)
            (([⟨0, 0⟩, ⟨0, 1⟩] : List Loc).getD 1 ⟨0, 0⟩) ∧
        (buildDistances [[(1 : ℝ)], [1]] [⟨0, 0⟩, ⟨0, 1⟩]).getD (0 * 2 + 1) 0 =
          (buildDistances [[(1 : ℝ)], [1]] [⟨0, 0⟩, ⟨0, 1⟩]).getD (1 * 2 + 0) 0) := by
  have hlenW : ∀ u ∈ [[(1 : ℝ)], [1]], ∀ v ∈ [[(1 : ℝ)], [1]],
      List.length u = List.length v := by
    intro u hu v hv
    simp only [List.mem_cons, List.not_mem_nil, or_false] at hu hv
    rcases hu with rfl | rfl <;> rcases hv with rfl | rfl <;> rfl
  have h := buildDistances_spec [[(1 : ℝ)], [1]] [⟨0, 0⟩, ⟨0, 1⟩] hlenW
  exact ⟨h.1, h.2 0 1 (by norm_num) (by norm_num)⟩

/-! ### Problem Assembler and Pipeline Orchestrator (`src/worker.ts`)

The routing-problem value assembled by `runSort` is embedded structurally;
the three external collaborators (embedder, UMAP, VRP solver) are passed in
as `Except`-valued functions, and `runSort` returns the ordered list of
messages it posts. -/

structure Place where
  location : Loc
  duration : ℕ

structure Delivery where
  places : List Place
  demand : List ℕ

structure Job where
  id : String
  deliveries : List Delivery

structure ShiftStart where
  earliest : String
  location : Loc

structure Shift where
  start : ShiftStart

structure VehicleCosts where
  fixed : ℕ
  distance : ℕ
  time : ℕ

structure VehicleProfile where
  matrix : String

structure Vehicle where
  typeId : String
  vehicleIds : List String
  profile : VehicleProfile
  costs : VehicleCosts
  shifts : List Shift
  capacity : List ℕ

structure Plan where
  jobs : List Job

structure FleetProfile where
  name : String

structure Fleet where
  vehicles : List Vehicle
  profiles : List FleetProfile

structure Problem where
  plan : Plan
  fleet : Fleet

structure MatrixData where
  matrix : String
  distances : List ℤ
  travelTimes : List ℤ

structure Termination where
  maxTime : ℕ
  maxGenerations : ℕ

structure SolverConfig where
  termination : Termination

structure Tour where
  stops : List Stop

structure Solution where
  tours : List Tour

/-- Payload of the terminal `SORTED` message. -/
structure SortedPayload where
  sortedIndices : List ℤ
  embeddings : List (List ℝ)
  coordinates : List (List ℝ)
  entities : List String

/-- Messages the runner posts to the controller (`ctx.postMessage`). -/
inductive Message where
  | READY
  | STATUS (payload : String)
  | SORTED (payload : SortedPayload)
  | ERROR (payload : String)

/-- Source: `entities.map((_, idx) => ({ id: job_idx, deliveries: [...] }))`. -/
def mkJobs (entities : List String) : List Job :=
  entities.mapIdx (fun idx _ =>
    { id := "job_" ++ toString idx,
      deliveries := [{ places := [{ location := encodeLoc (idx : ℤ), duration := 0 }],
                       demand := [1] }] })

/-- Source: the `vehicle` literal in `runSort`. -/
def vehicle : Vehicle :=
  { typeId := "vehicle",
    vehicleIds := ["v1"],
    profile := { matrix := "car" },
    costs := { fixed := 0, distance := 1, time := 0 },
    shifts := [{ start := { earliest := "2024-01-01T00:00:00Z",
                            location := encodeLoc 0 } }],
    capacity := [1000] }

/-- Source: the `problem` literal — jobs for items `1..N-1` (`jobs.slice(1)`,
item 0 is the depot-like anchor) and a single-vehicle fleet. -/
def mkProblem (entities : List String) : Problem :=
  { plan := { jobs := (mkJobs entities).drop 1 },
    fleet := { vehicles := [vehicle], profiles := [{ name := "car" }] } }

/-- Source: the `config` literal, `termination: { maxTime: 5, maxGenerations: 1000 }`. -/
def solverConfig : SolverConfig :=
  { termination := { maxTime := 5, maxGenerations := 1000 } }

/-- The worker's mutable collaborator state and the three external black
boxes: `extractor`/`vrpReady` mirror the module-level handles, and the
`Except`-valued functions model collaborator calls that may throw. -/
structure Collaborators where
  extractor : Option (List String → Except String (List (List ℝ)))
  vrpReady : Bool
  umapFit : List (List ℝ) → Except String (List (List ℝ))
  getRoutingLocations : Problem → Except String (List Loc)
  solvePragmatic : Problem → List MatrixData → SolverConfig → Except String Solution

/-- Shallow embedding of the worker's `runSort`: the returned list is the
sequence of messages posted, in order.  An `Except.error` from a collaborator
models a thrown exception reaching the surrounding `try/catch`, which posts a
single `ERROR` message. -/
noncomputable def runSort (C : Collaborators) (entities : List String) :
    List Message :=
  match C.extractor, C.vrpReady with
  | none, _ => [Message.ERROR "Worker not ready"]
  | some _, false => [Message.ERROR "Worker not ready"]
  | some extractor, true =>
    Message.STATUS "Computing embeddings..." ::
      match extractor entities with
      | Except.error e => [Message.ERROR e]
      | Except.ok embeddings =>
        Message.STATUS "Projecting with UMAP (2D)..." ::
          match C.umapFit embeddings with
          | Except.error e => [Message.ERROR e]
          | Except.ok coordinates =>
            Message.STATUS "Calculating distance matrix..." ::
              let problem := mkProblem entities
              match C.getRoutingLocations problem with
              | Except.error e => [Message.ERROR e]
              | Except.ok routingLocations =>
                let distances := buildDistances embeddings routingLocations
                let matrixData : List MatrixData :=
                  [{ matrix := "car", distances := distances, travelTimes := distances }]
                Message.STATUS "Solving TSP (WASM)..." ::
                  match C.solvePragmatic problem matrixData solverConfig with
                  | Except.error e => [Message.ERROR e]
                  | Except.ok solution =>
                    match solution.tours with
                    | [] => [Message.ERROR "No solution found."]
                    | tour :: _ =>
                      [Message.SORTED
                        { sortedIndices := decodeSolution tour.stops,
                          embeddings := embeddings,
                          coordinates := coordinates,
                          entities := entities }]

/-- C2: every single `runSort` run emits zero or more `STATUS` messages
followed by exactly one terminal message — a `SORTED` on success or an
`ERROR` on any failure — with nothing after the terminal message, for every
collaborator behaviour (no exception escapes unconverted). -/
theorem runSort_message_protocol (C : Collaborators) (entities : List String) :
    ∃ ss t, runSort C entities = ss ++ [t] ∧
      (∀ m ∈ ss, ∃ s, m = Message.STATUS s) ∧
      ((∃ p, t = Message.SORTED p) ∨ ∃ s, t = Message.ERROR s) := by
  rcases hE : C.extractor with _ | ext
  · exact ⟨[], Message.ERROR "Worker not ready", by simp [runSort, hE], by simp,
      Or.inr ⟨_, rfl⟩⟩
  · cases hV : C.vrpReady with
    | false =>
      exact ⟨[], Message.ERROR "Worker not ready", by simp [runSort, hE, hV], by simp,
        Or.inr ⟨_, rfl⟩⟩
    | true =>
      rcases hEm : ext entities with e | embeddings
      · refine ⟨[Message.STATUS "Computing embeddings..."], Message.ERROR e,
          by simp [runSort, hE, hV, hEm], ?_, Or.inr ⟨_, rfl⟩⟩
        intro m hm
        rcases List.mem_singleton.mp hm with rfl
        exact ⟨_, rfl⟩
      · rcases hUm : C.umapFit embeddings with e | coordinates
        · refine ⟨[Message.STATUS "Computing embeddings...",
            Message.STATUS "Projecting with UMAP (2D)..."], Message.ERROR e,
            by simp [runSort, hE, hV, hEm, hUm], ?_, Or.inr ⟨_, rfl⟩⟩
          intro m hm
          rcases List.mem_cons.mp hm with rfl | hm2
          · exact ⟨_, rfl⟩
          · rcases List.mem_singleton.mp hm2 with rfl
            exact ⟨_, rfl⟩
        · rcases hRl : C.getRoutingLocations (mkProblem entities) with e | routingLocations
          · refine ⟨[Message.STATUS "Computing embeddings...",
              Message.STATUS "Projecting with UMAP (2D)...",
              Message.STATUS "Calculating distance matrix..."], Message.ERROR e,
              by simp [runSort, hE, hV, hEm, hUm, hRl], ?_, Or.inr ⟨_, rfl⟩⟩
            intro m hm
            rcases List.mem_cons.mp hm with rfl | hm2
            · exact ⟨_, rfl⟩
            rcases List.mem_cons.mp hm2 with rfl | hm3
            · exact ⟨_, rfl⟩
            rcases List.mem_singleton.mp hm3 with rfl
            exact ⟨_, rfl⟩
          · rcases hSv : C.solvePragmatic (mkProblem entities)
                [{ matrix := "car",
                   distances := buildDistances embeddings routingLocations,
                   travelTimes := buildDistances embeddings routingLocations }]
                solverConfig with e | solution
            · refine ⟨[Message.STATUS "Computing embeddings...",
                Message.STATUS "Projecting with UMAP (2D)...",
                Message.STATUS "Calculating distance matrix...",
                Message.STATUS "Solving TSP (WASM)..."], Message.ERROR e,
                by simp [runSort, hE, hV, hEm, hUm, hRl, hSv], ?_, Or.inr ⟨_, rfl⟩⟩
              intro m hm
              rcases List.mem_cons.mp hm with rfl | hm2
              · exact ⟨_, rfl⟩
              rcases List.mem_cons.mp hm2 with rfl | hm3
              · exact ⟨_, rfl⟩
              rcases List.mem_cons.mp hm3 with rfl | hm4
              · exact ⟨_, rfl⟩
              rcases List.mem_singleton.mp hm4 with rfl
              exact ⟨_, rfl⟩
            · have hstat : ∀ m ∈ [Message.STATUS "Computing embeddings...",
                  Message.STATUS "Projecting with UMAP (2D)...",
                  Message.STATUS "Calculating distance matrix...",
                  Message.STATUS "Solving TSP (WASM)..."], ∃ s, m = Message.STATUS s := by
                intro m hm
                rcases List.mem_cons.mp hm with rfl | hm2
                · exact ⟨_, rfl⟩
                rcases List.mem_cons.mp hm2 with rfl | hm3
                · exact ⟨_, rfl⟩
                rcases List.mem_cons.mp hm3 with rfl | hm4
                · exact ⟨_, rfl⟩
                rcases List.mem_singleton.mp hm4 with rfl
                exact ⟨_, rfl⟩
              rcases hT : solution.tours with _ | ⟨tour, rest⟩
              · exact ⟨_, Message.ERROR "No solution found.",
                  by simp [runSort, hE, hV, hEm, hUm, hRl, hSv, hT], hstat,
                  Or.inr ⟨_, rfl⟩⟩
              · exact ⟨_, Message.SORTED
                  { sortedIndices := decodeSolution tour.stops,
                    embeddings := embeddings,
                    coordinates := coordinates,
                    entities := entities },
                  by simp [runSort, hE, hV, hEm, hUm, hRl, hSv, hT], hstat,
                  Or.inl ⟨_, rfl⟩⟩

/-- C10: if the runner handles a `SORT` request before initialization
completed (no embedder handle or the optimizer module not ready), it emits
exactly the single message `ERROR "Worker not ready"` — no `STATUS`, no
`SORTED`, no pipeline stage. -/
theorem runSort_worker_not_ready (C : Collaborators) (entities : List String)
    (h : C.extractor = none ∨ C.vrpReady = false) :
    runSort C entities = [Message.ERROR "Worker not ready"] := by
  rcases h with h | h
  · simp [runSort, h]
  · rcases hE : C.extractor with _ | ext
    · simp [runSort, hE]
    · simp [runSort, hE, h]

/-- Collaborator state of a worker whose initialization never completed. -/
def CnotReady : Collaborators :=
  { extractor := none,
    vrpReady := false,
    umapFit := fun _ => Except.ok [],
    getRoutingLocations := fun _ => Except.ok [],
    solvePragmatic := fun _ _ _ => Except.ok { tours := [] } }

/-- C10 witness: the not-ready worker handling a concrete `SORT` request. -/
theorem runSort_worker_not_ready_witness :
    runSort CnotReady ["alpha", "beta"] = [Message.ERROR "Worker not ready"] :=
  runSort_worker_not_ready CnotReady ["alpha", "beta"] (Or.inl rfl)

/-- C5 amended: when every stage succeeds but the optimizer reports an empty
tour list, the run terminates with exactly one `ERROR` message
(`"No solution found."`) after the four `STATUS` messages, and nothing — in
particular no `STATUS` or `SORTED` — is emitted after it. -/
theorem runSort_no_tours_error (C : Collaborators) (entities : List String)
    (ext : List String → Except String (List (List ℝ)))
    (embeddings coordinates : List (List ℝ)) (routingLocations : List Loc)
    (solution : Solution)
    (hE : C.extractor = some ext) (hV : C.vrpReady = true)
    (hEm : ext entities = Except.ok embeddings)
    (hUm : C.umapFit embeddings = Except.ok coordinates)
    (hRl : C.getRoutingLocations (mkProblem entities) = Except.ok routingLocations)
    (hSv : C.solvePragmatic (mkProblem entities)
        [{ matrix := "car",
           distances := buildDistances embeddings routingLocations,
           travelTimes := buildDistances embeddings routingLocations }]
        solverConfig = Except.ok solution)
    (hT : solution.tours = []) :
    runSort C entities =
      [Message.STATUS "Computing embeddings...",
       Message.STATUS "Projecting with UMAP (2D)...",
       Message.STATUS "Calculating distance matrix...",
       Message.STATUS "Solving TSP (WASM)...",
       Message.ERROR "No solution found."] := by
  simp [runSort, hE, hV, hEm, hUm, hRl, hSv, hT]

/-- Fully-initialized collaborators whose optimizer reports no tours. -/
def CnoTours : Collaborators :=
  { extractor := some (fun _ => Except.ok []),
    vrpReady := true,
    umapFit := fun _ => Except.ok [],
    getRoutingLocations := fun _ => Except.ok [],
    solvePragmatic := fun _ _ _ => Except.ok { tours := [] } }

/-- C5 amended witness: the no-tours optimizer on a concrete two-item run. -/
theorem runSort_no_tours_error_witness :
    runSort CnoTours ["a", "b"] =
      [Message.STATUS "Computing embeddings...",
       Message.STATUS "Projecting with UMAP (2D)...",
       Message.STATUS "Calculating distance matrix...",
       Message.STATUS "Solving TSP (WASM)...",
       Message.ERROR "No solution found."] :=
  runSort_no_tours_error CnoTours ["a", "b"] (fun _ => Except.ok []) [] [] []
    { tours := [] } rfl rfl rfl rfl rfl rfl rfl

/-- Fully-initialized collaborators whose optimizer returns one tour with an
empty stop list. -/
def CemptyStops : Collaborators :=
  { extractor := some (fun _ => Except.ok []),
    vrpReady := true,
    umapFit := fun _ => Except.ok [],
    getRoutingLocations := fun _ => Except.ok [],
    solvePragmatic := fun _ _ _ => Except.ok { tours := [{ stops := [] }] } }

/-- C5 counterexample: when the optimizer reports a tour with an empty stop
list, the run does **not** fail — no `ERROR` message is emitted at all; the
run terminates successfully with a `SORTED` message carrying an empty order
(the code only checks `tours.length > 0`, never the stop list). -/
theorem runSort_emptyStops_cex :
    (∀ s, Message.ERROR s ∉ runSort CemptyStops ["a", "b"]) ∧
      runSort CemptyStops ["a", "b"] =
        [Message.STATUS "Computing embeddings...",
         Message.STATUS "Projecting with UMAP (2D)...",
         Message.STATUS "Calculating distance matrix...",
         Message.STATUS "Solving TSP (WASM)...",
         Message.SORTED
           { sortedIndices := [], embeddings := [], coordinates := [],
             entities := ["a", "b"] }] := by
  have h : runSort CemptyStops ["a", "b"] =
      [Message.STATUS "Computing embeddings...",
       Message.STATUS "Projecting with UMAP (2D)...",
       Message.STATUS "Calculating distance matrix...",
       Message.STATUS "Solving TSP (WASM)...",
       Message.SORTED
         { sortedIndices := [], embeddings := [], coordinates := [],
           entities := ["a", "b"] }] := rfl
  refine ⟨?_, h⟩
  intro s
  rw [h]
  simp

/-! ### Interactive View State (`renderMap` in `src/main.ts`, lines 194–238)

`renderMap` derives deck.gl layer descriptors from the pipeline result and the
current visual parameters and calls `deckInstance.setProps`.  The `setProps`
argument is embedded as `DeckProps` with optional fields: `none` models a
field omitted from the call (left untouched, as `flyToEntity` omits `layers`),
`some` models a field included in the props (a write). -/

/-- The mutable `layerState` literal in `src/main.ts` (visual parameters). -/
structure LayerState where
  points : Bool
  lines : Bool
  labels : Bool
  scores : Bool
  arrows : Bool
  radius : ℝ
  lineWidth : ℝ
  labelSize : ℝ

/-- Initial value of `layerState` in the source. -/
noncomputable def defaultLayerState : LayerState :=
  { points := true, lines := true, labels := true, scores := false,
    arrows := false, radius := 8, lineWidth := 3, labelSize := 14 }

/-- A deck.gl `initialViewState` value. -/
structure ViewState where
  target : List ℝ
  zoom : ℝ

/-- One entry of `pointsData`. -/
structure PointDatum where
  position : List ℝ
  text : String
  index : ℕ

/-- One entry of `scoreData`; the source formats the similarity with
`.toFixed(2)`, here the numeric value is kept. -/
structure ScoreDatum where
  position : List ℝ
  sim : ℝ

/-- Layer descriptors for the five conditional deck.gl layers. -/
inductive Layer where
  | pathLayer (id : String) (data : List (List (List ℝ))) (width : ℝ)
  | scoreLayer (id : String) (data : List ScoreDatum) (size : ℝ)
  | scatterLayer (id : String) (data : List PointDatum) (radius : ℝ)
  | labelLayer (id : String) (data : List PointDatum) (size : ℝ)

/-- Argument of `deckInstance.setProps`: each field is present (`some`) or
omitted (`none`). -/
structure DeckProps where
  layers : Option (List Layer)
  initialViewState : Option ViewState

/-- JavaScript bounds fold initialized at `Infinity`: on a nonempty list this
equals the list minimum; on an empty list the JS value `Infinity` is never
observed downstream (all derived data lists are empty), so `0` stands in. -/
noncomputable def foldMin (xs : List ℝ) : ℝ :=
  match xs with
  | [] => 0
  | x :: t => t.foldl min x

/-- JavaScript bounds fold initialized at `-Infinity` (see `foldMin`). -/
noncomputable def foldMax (xs : List ℝ) : ℝ :=
  match xs with
  | [] => 0
  | x :: t => t.foldl max x

/-- JavaScript `x || 1` on a number: substitutes 1 exactly when `x` is the
falsy value 0. -/
noncomputable def orOne (x : ℝ) : ℝ :=
  if x = 0 then 1 else x

/-- Shallow embedding of `renderMap`: compute bounds, scale the coordinates
to the normalized frame, derive the point/path/score/arrow data, assemble the
enabled layers in source order, and emit the `setProps` argument — which
always includes `initialViewState: { target: [0, 0, 0], zoom: 1 }`. -/
noncomputable def renderMap (layerState : LayerState)
    (embeddings : List (List ℝ)) (sortedIndices : List ℤ)
    (entities : List String) (coordinates : List (List ℝ)) : DeckProps :=
  let minX := foldMin (coordinates.map (fun c => c.getD 0 0))
  let maxX := foldMax (coordinates.map (fun c => c.getD 0 0))
  let minY := foldMin (coordinates.map (fun c => c.getD 1 0))
  let maxY := foldMax (coordinates.map (fun c => c.getD 1 0))
  let scale := 200 / max (orOne (maxX - minX)) (orOne (maxY - minY))
  let scaledCoords := coordinates.map (fun c =>
    [(c.getD 0 0 - (minX + maxX) / 2) * scale,
     (c.getD 1 0 - (minY + maxY) / 2) * scale])
  let pointsData := scaledCoords.mapIdx (fun i c =>
    { position := c, text := entities.getD i "", index := i : PointDatum })
  let segIdx := List.range (sortedIndices.length - 1)
  let pathData := segIdx.map (fun i =>
    let f := (sortedIndices.getD i 0).toNat
    let t := (sortedIndices.getD (i + 1) 0).toNat
    [scaledCoords.getD f [], scaledCoords.getD t []])
  let scoreData := segIdx.map (fun i =>
    let f := (sortedIndices.getD i 0).toNat
    let t := (sortedIndices.getD (i + 1) 0).toNat
    let p1 := scaledCoords.getD f []
    let p2 := scaledCoords.getD t []
    { position := [(p1.getD 0 0 + p2.getD 0 0) / 2, (p1.getD 1 0 + p2.getD 1 0) / 2],
      sim := 1 - getDistance (embeddings.getD f []) (embeddings.getD t []) : ScoreDatum })
  let arrowPathData := segIdx.filterMap (fun i =>
    let f := (sortedIndices.getD i 0).toNat
    let t := (sortedIndices.getD (i + 1) 0).toNat
    let p1 := scaledCoords.getD f []
    let p2 := scaledCoords.getD t []
    let dx := p2.getD 0 0 - p1.getD 0 0
    let dy := p2.getD 1 0 - p1.getD 1 0
    let len := Real.sqrt (dx * dx + dy * dy)
    if len > 0.1 then
      let ax := p1.getD 0 0 + dx * 0.6
      let ay := p1.getD 1 0 + dy * 0.6
      let ux := dx / len
      let uy := dy / len
      let vx := -uy
      let vy := ux
      let sz := max 4 (layerState.lineWidth * 2.5)
      let bx := ax - ux * sz
      let bY := ay - uy * sz
      some [[bx + vx * sz * 0.6, bY + vy * sz * 0.6], [ax, ay],
            [bx - vx * sz * 0.6, bY - vy * sz * 0.6]]
    else none)
  let layers : List Layer :=
    (if layerState.lines then
      [Layer.pathLayer "path-layer" pathData layerState.lineWidth] else []) ++
    (if layerState.arrows then
      [Layer.pathLayer "arrow-layer" arrowPathData (max 2 (layerState.lineWidth * 0.7))]
     else []) ++
    (if layerState.scores then [Layer.scoreLayer "score-layer" scoreData 12] else []) ++
    (if layerState.points then
      [Layer.scatterLayer "scatter-layer" pointsData layerState.radius] else []) ++
    (if layerState.labels then
      [Layer.labelLayer "text-layer" pointsData layerState.labelSize] else [])
  { layers := some layers,
    initialViewState := some { target := [0, 0, 0], zoom := 1 } }

/-- C3 counterexample: re-deriving the layers with only the `radius` visual
parameter changed (same result data) still emits a camera write — the props
include `initialViewState` set to the default framing, rather than leaving
the camera target untouched. -/
theorem renderMap_param_change_resets_camera_cex :
    (renderMap { defaultLayerState with radius := 9 } [[(1 : ℝ)], [1]] [0, 1]
        ["a", "b"] [[0, 0], [1, 1]]).initialViewState ≠ none ∧
      (renderMap { defaultLayerState with radius := 9 } [[(1 : ℝ)], [1]] [0, 1]
          ["a", "b"] [[0, 0], [1, 1]]).initialViewState =
        some { target := [0, 0, 0], zoom := 1 } ∧
      ({ defaultLayerState with radius := 9 } : LayerState).radius ≠
        defaultLayerState.radius := by
  refine ⟨?_, rfl, ?_⟩
  · exact Option.some_ne_none _
  · show (9 : ℝ) ≠ 8
    norm_num

/-- C3 amended: `renderMap` unconditionally includes a camera reset to the
default framing (`target [0,0,0]`, `zoom 1`) in the props of every call —
for new results and for visual-parameter-only re-renders alike; the camera
target is never left untouched. -/
theorem renderMap_always_resets_camera (layerState : LayerState)
    (embeddings : List (List ℝ)) (sortedIndices : List ℤ)
    (entities : List String) (coordinates : List (List ℝ)) :
    (renderMap layerState embeddings sortedIndices entities coordinates).initialViewState =
      some { target := [0, 0, 0], zoom := 1 } :=
  rfl

end SemanticSorter
